import Mathlib

/-!
Verification development for the podcastfy content-assembly design.

The repository's core algorithm ("Content Chunking with Contextual Linking")
is specified in `spec.md`; the chunker, the chunk loop and the context linker
are modelled here from the spec, while the OpenAI TTS provider and the
notebook glue are embedded directly from the Python source
(`podcastfy/tts/providers/openai.py` and `podcastfy.py`).

Content is modelled as `List Char` (the spec measures chunks in characters).
-/

namespace Podcastfy

/-- Modelled from the spec: error kinds of §7.  Only `InvalidConfiguration`
is raised by the core chunker (bad chunk-size parameters); the chunker itself
is missing from the sources, only its spec and its notebook callers exist. -/
inductive CoreError where
  | invalidConfiguration : CoreError
deriving DecidableEq, Repr

/-- Modelled from the spec (§4.1): candidate chunk size
`max(min_chunk_size, ceil(len(Content) / max_num_chunks))`,
computed with natural ceiling division. -/
def chunkSize (contentLen maxNumChunks minChunkSize : Nat) : Nat :=
  max minChunkSize ((contentLen + maxNumChunks - 1) / maxNumChunks)

/-- Left-to-right cutting loop, structurally recursive on a fuel bounded by
the content length (each cut consumes at least one character, so
`l.length` steps always suffice). -/
def splitChunksAux : Nat → Nat → List Char → List (List Char)
  | 0, _, l => [l]
  | fuel + 1, sz, l =>
    if l.length ≤ sz ∨ sz = 0 then [l]
    else l.take sz :: splitChunksAux fuel sz (l.drop sz)

/-- Modelled from the spec (§4.1): walk Content left-to-right cutting chunks
at the candidate size.  The spec leaves the exact boundary-snapping rule open
(§9 "Open question"), so the model cuts at the raw character count.  A content
whose remaining length is at most the cut size becomes the final chunk, which
also makes content of length ≤ `min_chunk_size` a single chunk. -/
def splitChunks (sz : Nat) (l : List Char) : List (List Char) :=
  splitChunksAux l.length sz l

/-- Modelled from the spec (§4.1, §6, §7): the Chunker.  Parameters arrive as
integers (`max_num_chunks` default 7, `min_chunk_size` default 600);
non-positive values fail with `InvalidConfiguration`, and that positivity
check is the only core-side validation. -/
def chunker (max_num_chunks min_chunk_size : Int) (content : List Char) :
    Except CoreError (List (List Char)) :=
  if max_num_chunks ≤ 0 ∨ min_chunk_size ≤ 0 then
    .error .invalidConfiguration
  else
    .ok (splitChunks (chunkSize content.length max_num_chunks.toNat min_chunk_size.toNat)
          content)

/-- Concatenating the chunks produced by the cutting loop gives back the input. -/
theorem splitChunksAux_flatten (fuel sz : Nat) (l : List Char) :
    (splitChunksAux fuel sz l).flatten = l := by
  induction fuel generalizing l with
  | zero => simp [splitChunksAux]
  | succ fuel ih =>
    rw [splitChunksAux]
    split
    · simp
    · rw [List.flatten_cons, ih (l.drop sz), List.take_append_drop]

/-- Concatenating the chunks produced by `splitChunks` gives back the input. -/
theorem splitChunks_flatten (sz : Nat) (l : List Char) : (splitChunks sz l).flatten = l :=
  splitChunksAux_flatten l.length sz l

/-- The cutting loop never returns an empty list of chunks. -/
theorem splitChunksAux_ne_nil (fuel sz : Nat) (l : List Char) :
    splitChunksAux fuel sz l ≠ [] := by
  cases fuel with
  | zero => simp [splitChunksAux]
  | succ fuel =>
    rw [splitChunksAux]
    split <;> simp

/-- Every chunk before the last produced by the cutting loop has length
exactly `sz`. -/
theorem splitChunksAux_dropLast_length (fuel sz : Nat) (l : List Char) :
    ∀ c ∈ (splitChunksAux fuel sz l).dropLast, c.length = sz := by
  induction fuel generalizing l with
  | zero => simp [splitChunksAux]
  | succ fuel ih =>
    rw [splitChunksAux]
    split
    · simp
    · rename_i h
      rw [List.dropLast_cons_of_ne_nil (splitChunksAux_ne_nil fuel sz (l.drop sz))]
      intro c hc
      rcases List.mem_cons.mp hc with hc | hc
      · subst hc
        rw [List.length_take]
        omega
      · exact ih (l.drop sz) c hc

/-- Every chunk before the last produced by `splitChunks` has length exactly `sz`. -/
theorem splitChunks_dropLast_length (sz : Nat) (l : List Char) :
    ∀ c ∈ (splitChunks sz l).dropLast, c.length = sz :=
  splitChunksAux_dropLast_length l.length sz l

/-- The chunk count of the cutting loop is at most `k` whenever the input fits
into `k` pieces of size `sz` and the fuel covers the input length. -/
theorem splitChunksAux_length_le (fuel sz k : Nat) (l : List Char)
    (hk : 0 < k) (hle : l.length ≤ sz * k) (hf : l.length ≤ fuel) :
    (splitChunksAux fuel sz l).length ≤ k := by
  induction fuel generalizing l k with
  | zero => simpa [splitChunksAux] using hk
  | succ fuel ih =>
    rw [splitChunksAux]
    split
    · simpa using hk
    · rename_i h
      push_neg at h
      obtain ⟨hlen, hsz⟩ := h
      have hk1 : 1 < k := by
        rcases Nat.lt_or_ge 1 k with h1 | h1
        · exact h1
        · exfalso
          have : k = 1 := by omega
          subst this
          omega
      have hmul : sz * (k - 1) = sz * k - sz := by
        rw [Nat.mul_sub_one]
      have hrec : (splitChunksAux fuel sz (l.drop sz)).length ≤ k - 1 := by
        apply ih (k - 1) (l.drop sz) (by omega)
        · rw [List.length_drop]
          omega
        · rw [List.length_drop]
          omega
      simp only [List.length_cons]
      omega

/-- The chunk count of `splitChunks` is at most `k` whenever the input fits
into `k` pieces of size `sz`. -/
theorem splitChunks_length_le (sz : Nat) (l : List Char) (k : Nat)
    (hk : 0 < k) (hle : l.length ≤ sz * k) :
    (splitChunks sz l).length ≤ k :=
  splitChunksAux_length_le l.length sz k l hk hle (Nat.le_refl _)

/-- A successful chunker run means both parameters were positive and the
result is the cutting loop at the candidate chunk size. -/
theorem chunker_eq_ok (max_num_chunks min_chunk_size : Int) (content : List Char)
    (cs : List (List Char))
    (h : chunker max_num_chunks min_chunk_size content = .ok cs) :
    0 < max_num_chunks ∧ 0 < min_chunk_size ∧
      cs = splitChunks (chunkSize content.length max_num_chunks.toNat min_chunk_size.toNat)
            content := by
  unfold chunker at h
  split at h
  · cases h
  · rename_i hcond
    push_neg at hcond
    injection h with h2
    exact ⟨hcond.1, hcond.2, h2.symm⟩

/-- Any `n` fits into `k` pieces of the ceiling size `⌈n / k⌉`. -/
theorem le_ceil_mul (n k : Nat) (hk : 0 < k) : n ≤ ((n + k - 1) / k) * k := by
  have h := Nat.div_add_mod (n + k - 1) k
  have h2 : (n + k - 1) % k < k := Nat.mod_lt _ hk
  rw [Nat.mul_comm]
  omega

/-- Any `n` fits into `maxk` pieces of the candidate chunk size. -/
theorem le_chunkSize_mul (n maxk mink : Nat) (hk : 0 < maxk) :
    n ≤ chunkSize n maxk mink * maxk :=
  le_trans (le_ceil_mul n maxk hk)
    (Nat.mul_le_mul_right _ (Nat.le_max_right mink ((n + maxk - 1) / maxk)))

/-- Character offset at which chunk `i` starts: the sum of the lengths of the
chunks before it. -/
def chunkOffset (cs : List (List Char)) (i : Nat) : Nat :=
  ((cs.take i).map List.length).sum

/-- Consecutive chunk offsets differ by exactly the chunk length: the next
chunk starts where the previous one ends. -/
theorem chunkOffset_succ (cs : List (List Char)) (i : Nat) (hi : i < cs.length) :
    chunkOffset cs (i + 1) = chunkOffset cs i + cs[i].length := by
  induction cs generalizing i with
  | nil => exact absurd hi (by simp)
  | cons c t ih =>
    cases i with
    | zero => simp [chunkOffset]
    | succ j =>
      have hj : j < t.length := by simpa using hi
      have hrec := ih j hj
      simp only [chunkOffset, List.take_succ_cons, List.map_cons, List.sum_cons,
        List.getElem_cons_succ] at hrec ⊢
      omega

/-- Each element of a flattened list is the slice of the flattening starting
at its offset. -/
theorem flatten_slice (cs : List (List Char)) (i : Nat) (hi : i < cs.length) :
    cs[i] = (cs.flatten.drop (chunkOffset cs i)).take cs[i].length := by
  induction cs generalizing i with
  | nil => exact absurd hi (by simp)
  | cons c t ih =>
    cases i with
    | zero =>
      simp only [chunkOffset, List.take_zero, List.map_nil, List.sum_nil, List.drop_zero,
        List.getElem_cons_zero, List.flatten_cons]
      exact (List.take_left c t.flatten).symm
    | succ j =>
      have hj : j < t.length := by simpa using hi
      have hrec := ih j hj
      simp only [chunkOffset, List.take_succ_cons, List.map_cons, List.sum_cons,
        List.flatten_cons, List.getElem_cons_succ] at hrec ⊢
      rw [List.drop_append]
      exact hrec

/-- C1: for every Content and valid parameter pair, the chunks produced by
the Chunker are contiguous and non-overlapping — every chunk is the slice of
Content starting exactly where the previous chunk ends — and concatenating
them in order reconstructs Content exactly. -/
theorem chunker_reconstructs (max_num_chunks min_chunk_size : Int)
    (content : List Char) (cs : List (List Char))
    (h : chunker max_num_chunks min_chunk_size content = .ok cs) :
    cs.flatten = content ∧
      (∀ i (hi : i < cs.length),
        cs[i] = (content.drop (chunkOffset cs i)).take cs[i].length) ∧
      ∀ i (hi : i < cs.length),
        chunkOffset cs (i + 1) = chunkOffset cs i + cs[i].length := by
  have hflat : cs.flatten = content := by
    obtain ⟨_, _, hcs⟩ := chunker_eq_ok _ _ _ _ h
    subst hcs
    exact splitChunks_flatten _ _
  refine ⟨hflat, fun i hi => ?_, fun i hi => chunkOffset_succ cs i hi⟩
  rw [← hflat]
  exact flatten_slice cs i hi

/-- C1 witness: chunking the five characters `abcde` with
`max_num_chunks = 2`, `min_chunk_size = 2` gives `[abc, de]`, whose
concatenation is the input again. -/
theorem chunker_reconstructs_witness :
    ([['a', 'b', 'c'], ['d', 'e']] : List (List Char)).flatten
      = ['a', 'b', 'c', 'd', 'e'] :=
  (chunker_reconstructs 2 2 ['a', 'b', 'c', 'd', 'e'] [['a', 'b', 'c'], ['d', 'e']]
    (by rfl)).1

/-- C3: for every Content and valid parameter pair, the Chunker produces at
most `max_num_chunks` chunks. -/
theorem chunker_count_le (max_num_chunks min_chunk_size : Int) (content : List Char)
    (cs : List (List Char))
    (h : chunker max_num_chunks min_chunk_size content = .ok cs) :
    (cs.length : Int) ≤ max_num_chunks := by
  obtain ⟨hmax, hmin, hcs⟩ := chunker_eq_ok _ _ _ _ h
  subst hcs
  have hkpos : 0 < max_num_chunks.toNat := by omega
  have hb := splitChunks_length_le
    (chunkSize content.length max_num_chunks.toNat min_chunk_size.toNat) content
    max_num_chunks.toNat hkpos
    (le_chunkSize_mul content.length max_num_chunks.toNat min_chunk_size.toNat hkpos)
  omega

/-- C3 witness: chunking `abcde` with `max_num_chunks = 2` yields 2 ≤ 2 chunks. -/
theorem chunker_count_le_witness :
    ((([['a', 'b', 'c'], ['d', 'e']] : List (List Char)).length : Int)) ≤ 2 :=
  chunker_count_le 2 2 ['a', 'b', 'c', 'd', 'e'] [['a', 'b', 'c'], ['d', 'e']] (by rfl)

/-- C4: for every Content and valid parameter pair, every chunk except
possibly the last has at least `min_chunk_size` characters. -/
theorem chunker_min_size (max_num_chunks min_chunk_size : Int) (content : List Char)
    (cs : List (List Char))
    (h : chunker max_num_chunks min_chunk_size content = .ok cs) :
    ∀ c ∈ cs.dropLast, min_chunk_size ≤ (c.length : Int) := by
  obtain ⟨hmax, hmin, hcs⟩ := chunker_eq_ok _ _ _ _ h
  subst hcs
  intro c hc
  have hlen := splitChunks_dropLast_length _ content c hc
  have hsz : min_chunk_size.toNat ≤
      chunkSize content.length max_num_chunks.toNat min_chunk_size.toNat :=
    Nat.le_max_left _ _
  omega

/-- C4 witness: in the chunking of `abcde` with `min_chunk_size = 2`, the
non-final chunk `abc` has at least 2 characters. -/
theorem chunker_min_size_witness : (2 : Int) ≤ ((['a', 'b', 'c'] : List Char).length : Int) :=
  chunker_min_size 2 2 ['a', 'b', 'c', 'd', 'e'] [['a', 'b', 'c'], ['d', 'e']] (by rfl)
    ['a', 'b', 'c'] (by decide)

/-- Content no longer than the cut size is returned as a single chunk. -/
theorem splitChunksAux_single (fuel sz : Nat) (l : List Char) (h : l.length ≤ sz) :
    splitChunksAux fuel sz l = [l] := by
  cases fuel with
  | zero => rfl
  | succ fuel => rw [splitChunksAux, if_pos (Or.inl h)]

/-- C5: for every Content of length at most `min_chunk_size` and valid
parameter pair, the Chunker produces exactly one chunk holding the whole
Content. -/
theorem chunker_short_content (max_num_chunks min_chunk_size : Int) (content : List Char)
    (hmax : 0 < max_num_chunks) (hmin : 0 < min_chunk_size)
    (hlen : (content.length : Int) ≤ min_chunk_size) :
    chunker max_num_chunks min_chunk_size content = .ok [content] := by
  unfold chunker
  rw [if_neg (by omega)]
  congr 1
  apply splitChunksAux_single
  have : content.length ≤ min_chunk_size.toNat := by omega
  exact le_trans this (Nat.le_max_left _ _)

/-- C5 witness: two characters with `min_chunk_size = 600` give one chunk. -/
theorem chunker_short_content_witness :
    chunker 7 600 ['h', 'i'] = .ok [['h', 'i']] :=
  chunker_short_content 7 600 ['h', 'i'] (by decide) (by decide) (by decide)

/-- C6: the Chunker fails with `InvalidConfiguration` exactly when
`max_num_chunks ≤ 0` or `min_chunk_size ≤ 0`, and the positivity check is the
only core-side validation: all other parameters go straight to the cutting
loop and yield a chunk sequence. -/
theorem chunker_validation (max_num_chunks min_chunk_size : Int) (content : List Char) :
    (chunker max_num_chunks min_chunk_size content = .error .invalidConfiguration ↔
      max_num_chunks ≤ 0 ∨ min_chunk_size ≤ 0) ∧
    (0 < max_num_chunks → 0 < min_chunk_size →
      chunker max_num_chunks min_chunk_size content =
        .ok (splitChunks
          (chunkSize content.length max_num_chunks.toNat min_chunk_size.toNat) content)) := by
  constructor
  · constructor
    · intro h
      by_contra hcon
      push_neg at hcon
      unfold chunker at h
      rw [if_neg (by omega)] at h
      cases h
    · intro h
      unfold chunker
      rw [if_pos h]
  · intro h1 h2
    unfold chunker
    rw [if_neg (by omega)]

/-- C6 witness: `max_num_chunks = 0` is rejected as `InvalidConfiguration`,
while the default configuration (7, 600) produces a chunk sequence. -/
theorem chunker_validation_witness :
    chunker 0 600 ['a'] = .error .invalidConfiguration ∧
      chunker 7 600 ['a'] =
        .ok (splitChunks (chunkSize (['a'] : List Char).length (7 : Int).toNat
          (600 : Int).toNat) ['a']) :=
  ⟨(chunker_validation 0 600 ['a']).1.mpr (Or.inl (by decide)),
   (chunker_validation 7 600 ['a']).2 (by decide) (by decide)⟩

/-- Modelled from the spec (§3): exactly two speaker roles per conversation. -/
inductive Speaker where
  | person1
  | person2
deriving DecidableEq, Repr

/-- Modelled from the spec (§3): a ConversationTurn is the output of one Turn
Generator invocation — the chunk index it corresponds to and its ordered,
speaker-tagged utterances.  The Turn Generator itself is an external
collaborator missing from the sources. -/
structure ConversationTurn where
  chunkIndex : Nat
  utterances : List (Speaker × List Char)
deriving DecidableEq, Repr

/-- Modelled from the spec (§7): a GenerationError carries the failing
chunk's index so the caller can retry from that point. -/
structure GenerationError where
  chunkIndex : Nat
  message : List Char
deriving DecidableEq, Repr

/-- Modelled from the spec (§4.2, §9): the constant LinkContext capacity in
characters.  The spec leaves the exact constant open; the model fixes one. -/
def linkContextSize : Nat := 100

/-- All characters of a turn's utterances, in order. -/
def turnText (t : ConversationTurn) : List Char :=
  (t.utterances.map Prod.snd).flatten

/-- Modelled from the spec (§4.2): the Context Linker derives the LinkContext
as a bounded character tail of the previous turn. -/
def deriveLinkContext (t : ConversationTurn) : List Char :=
  (turnText t).drop ((turnText t).length - linkContextSize)

/-- A Turn Generator capability: an external generation call taking the
1-based chunk index, the chunk text and the carried LinkContext, returning a
turn or failing with an error message (spec §4.3, §6). -/
abbrev TurnGen : Type :=
  Nat → List Char → List Char → Except (List Char) ConversationTurn

/-- Modelled from the spec (§4.3, §5, §7): the strictly sequential chunk
loop.  Each chunk gets exactly one generation call conditioned on the
LinkContext derived from the previous turn; a failed call aborts the whole
construction with a `GenerationError` carrying the failing chunk's index,
returning no turns at all. -/
def runChunks (gen : TurnGen) :
    List (List Char) → Nat → List Char → Except GenerationError (List ConversationTurn)
  | [], _, _ => .ok []
  | c :: cs, i, ctx =>
    match gen i c ctx with
    | .error msg => .error ⟨i, msg⟩
    | .ok t =>
      match runChunks gen cs (i + 1) (deriveLinkContext t) with
      | .error e => .error e
      | .ok ts => .ok (t :: ts)

/-- Modelled from the spec (§4.4): the Transcript Assembler concatenates the
turns' utterances in order, reordering and dropping nothing. -/
def assembleTranscript (ts : List ConversationTurn) : List (Speaker × List Char) :=
  (ts.map ConversationTurn.utterances).flatten

/-- Modelled from the spec (§2, §5): the longform pipeline after chunking —
run the chunk loop from chunk index 1 with an empty initial LinkContext and
assemble the transcript only when every chunk succeeded. -/
def generateLongform (gen : TurnGen) (chunks : List (List Char)) :
    Except GenerationError (List (Speaker × List Char)) :=
  match runChunks gen chunks 1 [] with
  | .error e => .error e
  | .ok ts => .ok (assembleTranscript ts)

/-- The LinkContexts actually handed to the Turn Generator along a run of
the chunk loop, in call order. -/
def contextsUsed (gen : TurnGen) :
    List (List Char) → Nat → List Char → List (List Char)
  | [], _, _ => []
  | c :: cs, i, ctx =>
    ctx :: match gen i c ctx with
      | .error _ => []
      | .ok t => contextsUsed gen cs (i + 1) (deriveLinkContext t)

/-- An error result of the chunk loop names a chunk on which the generator
really failed. -/
theorem runChunks_error (gen : TurnGen) (cs : List (List Char)) (k : Nat)
    (ctx : List Char) (e : GenerationError) (h : runChunks gen cs k ctx = .error e) :
    ∃ j, ∃ hj : j < cs.length, e.chunkIndex = k + j ∧
      ∃ ctx2, gen (k + j) cs[j] ctx2 = .error e.message := by
  induction cs generalizing k ctx with
  | nil => cases h
  | cons c cs ih =>
    rw [runChunks] at h
    split at h
    · rename_i msg hg
      injection h with h2
      subst h2
      exact ⟨0, by simp, rfl, ctx, hg⟩
    · rename_i t hg
      split at h
      · rename_i e2 hr
        injection h with h2
        subst h2
        obtain ⟨j, hj, hidx, c2, hgen⟩ := ih (k + 1) (deriveLinkContext t) hr
        refine ⟨j + 1, by simpa using hj, by omega, c2, ?_⟩
        have hadd : k + (j + 1) = k + 1 + j := by omega
        rw [hadd, List.getElem_cons_succ]
        exact hgen
      · cases h

/-- C2: a Turn Generator failure on some chunk makes the whole pipeline fail
with a `GenerationError` carrying the failing chunk's 1-based index; the
successful turns of earlier chunks are discarded and no partial or truncated
Transcript is ever returned. -/
theorem generation_failure_aborts (gen : TurnGen) (chunks : List (List Char))
    (e : GenerationError) (h : generateLongform gen chunks = .error e) :
    (∃ j, ∃ hj : j < chunks.length, e.chunkIndex = 1 + j ∧
      ∃ ctx, gen (1 + j) chunks[j] ctx = .error e.message) ∧
    ∀ transcript, generateLongform gen chunks ≠ .ok transcript := by
  have hrun : runChunks gen chunks 1 [] = .error e := by
    unfold generateLongform at h
    cases hr : runChunks gen chunks 1 [] with
    | error e2 =>
      rw [hr] at h
      injection h with h2
      rw [h2]
    | ok ts =>
      rw [hr] at h
      cases h
  refine ⟨runChunks_error gen chunks 1 [] e hrun, fun transcript hok => ?_⟩
  rw [h] at hok
  cases hok

/-- Generator used by witnesses: succeeds on every chunk, echoing the chunk
text as a single utterance. -/
def wgenOk : TurnGen := fun i c _ => .ok ⟨i, [(Speaker.person1, c)]⟩

/-- Generator used by witnesses: fails on chunk index 3, succeeds elsewhere. -/
def wgenFail3 : TurnGen := fun i c _ =>
  if i = 3 then .error ['b', 'a', 'd'] else .ok ⟨i, [(Speaker.person1, c)]⟩

/-- Five one-character chunks used by witnesses. -/
def wchunks5 : List (List Char) := [['a'], ['b'], ['c'], ['d'], ['e']]

/-- C2 witness: a generator failure on chunk 3 of 5 makes the pipeline fail
with chunk index 3 and no transcript is returned. -/
theorem generation_failure_aborts_witness :
    (∃ j, ∃ hj : j < wchunks5.length, (3 : Nat) = 1 + j ∧
      ∃ ctx, wgenFail3 (1 + j) wchunks5[j] ctx = .error ['b', 'a', 'd']) ∧
    ∀ transcript, generateLongform wgenFail3 wchunks5 ≠ .ok transcript :=
  generation_failure_aborts wgenFail3 wchunks5 ⟨3, ['b', 'a', 'd']⟩ (by rfl)

/-- The derived LinkContext never exceeds the constant capacity. -/
theorem deriveLinkContext_length_le (t : ConversationTurn) :
    (deriveLinkContext t).length ≤ linkContextSize := by
  unfold deriveLinkContext
  rw [List.length_drop]
  omega

/-- Every LinkContext handed to the generator along a run is bounded by the
constant capacity, provided the initial one is. -/
theorem contextsUsed_bounded (gen : TurnGen) (cs : List (List Char)) (k : Nat)
    (ctx : List Char) (hctx : ctx.length ≤ linkContextSize) :
    ∀ c ∈ contextsUsed gen cs k ctx, c.length ≤ linkContextSize := by
  induction cs generalizing k ctx with
  | nil => simp [contextsUsed]
  | cons c cs ih =>
    rw [contextsUsed]
    intro x hx
    rcases List.mem_cons.mp hx with hx | hx
    · rw [hx]
      exact hctx
    · cases hg : gen k c ctx with
      | error msg =>
        rw [hg] at hx
        simp at hx
      | ok t =>
        rw [hg] at hx
        exact ih (k + 1) (deriveLinkContext t) (deriveLinkContext_length_le t) x hx

/-- C7: every LinkContext carried into a Turn Generator invocation of the
longform pipeline has size at most the constant `linkContextSize`, a bound
independent of the number of chunks and of the transcript accumulated so
far. -/
theorem linkContext_bounded (gen : TurnGen) (chunks : List (List Char)) :
    ∀ c ∈ contextsUsed gen chunks 1 [], c.length ≤ linkContextSize :=
  contextsUsed_bounded gen chunks 1 [] (by simp)

/-- C7 witness: in a two-chunk run the second carried context is the
one-character tail of the first turn, well within the constant bound. -/
theorem linkContext_bounded_witness :
    (['a'] : List Char).length ≤ linkContextSize :=
  linkContext_bounded wgenOk [['a'], ['b']] ['a'] (by decide)

/-- Python exception values raised by the embedded code, keyed by exception
class with the message `str(e)` would show. -/
inductive PyError where
  | runtimeError (message : String)
  | valueError (message : String)
  | apiError (message : String)
deriving DecidableEq, Repr

/-- The message `str(e)` shows for an exception value. -/
def PyError.toMessage : PyError → String
  | .runtimeError m => m
  | .valueError m => m
  | .apiError m => m

/-- A raised Python exception together with its `raise ... from e` cause. -/
structure Raised where
  error : PyError
  cause : Option PyError
deriving DecidableEq, Repr

/-- Python truthiness of an optional string: `None` and the empty string are
falsy, every other string is truthy. -/
def pyTruthy : Option String → Bool
  | none => false
  | some s => !s.isEmpty

/-- Default `model` argument of `OpenAITTS.__init__`
(src/podcastfy/tts/providers/openai.py line 18). -/
def openAITTS_default_model : String := "tts-1-hd"

/-- State established by a successful `OpenAITTS.__init__`: the module-level
`openai.api_key` after the call and the instance's `self.model`. -/
structure OpenAITTSState where
  openai_api_key : Option String
  model : String
deriving DecidableEq, Repr

/-- Embedding of `OpenAITTS.__init__`
(src/podcastfy/tts/providers/openai.py lines 18-30): if `api_key` is truthy
it is stored into the module-level `openai.api_key`; otherwise, if no module
key is set either, a `ValueError` is raised; `self.model` is set on every
normal return. -/
def OpenAITTS_init (module_api_key : Option String) (api_key : Option String)
    (model : String) : Except PyError OpenAITTSState :=
  if pyTruthy api_key then
    .ok ⟨api_key, model⟩
  else if !pyTruthy module_api_key then
    .error (.valueError "OpenAI API key must be provided or set in environment")
  else
    .ok ⟨module_api_key, model⟩

/-- C10: `OpenAITTS.__init__` raises a `ValueError` exactly when `api_key` is
falsy and no module-level key is set; in every other case it returns
normally with `self.model` set to the given model, the module key being
overwritten exactly when a truthy `api_key` was passed. -/
theorem openAITTS_init_spec (module_api_key api_key : Option String) (model : String) :
    ((∃ msg, OpenAITTS_init module_api_key api_key model = .error (.valueError msg)) ↔
      pyTruthy api_key = false ∧ pyTruthy module_api_key = false) ∧
    (pyTruthy api_key = true →
      OpenAITTS_init module_api_key api_key model = .ok ⟨api_key, model⟩) ∧
    (pyTruthy api_key = false → pyTruthy module_api_key = true →
      OpenAITTS_init module_api_key api_key model = .ok ⟨module_api_key, model⟩) := by
  unfold OpenAITTS_init
  cases ha : pyTruthy api_key <;> cases hm : pyTruthy module_api_key <;>
    simp

/-- C10 witness: with no module key, a `None` api_key raises `ValueError`, a
real key is stored with the default model, and an already-set module key
survives a `None` api_key. -/
theorem openAITTS_init_spec_witness :
    (∃ msg, OpenAITTS_init none none openAITTS_default_model = .error (.valueError msg)) ∧
    OpenAITTS_init none (some "sk-1") openAITTS_default_model =
      .ok ⟨some "sk-1", openAITTS_default_model⟩ ∧
    OpenAITTS_init (some "sk-0") none openAITTS_default_model =
      .ok ⟨some "sk-0", openAITTS_default_model⟩ :=
  ⟨(openAITTS_init_spec none none openAITTS_default_model).1.mpr (by decide),
   (openAITTS_init_spec none (some "sk-1") openAITTS_default_model).2.1 (by decide),
   (openAITTS_init_spec (some "sk-0") none openAITTS_default_model).2.2 (by decide) (by decide)⟩

/-- Environment read by `generate_audio`: the TTS timeout, the
`OPENAI_TTS_VOICE_AS_MODEL` switch and the optional base URL. -/
structure TTSEnv where
  timeout : Nat
  voice_as_model : Option String
  base_url : Option String
deriving DecidableEq, Repr

/-- The request handed to `client.audio.speech.create`. -/
structure SpeechRequest where
  model : String
  voice : String
  input : String
  extra_body : List (String × String)
deriving DecidableEq, Repr

/-- Audio bytes returned by the synthesis service, modelled as a byte list. -/
abbrev AudioBytes : Type := List Nat

/-- The request `generate_audio` builds from its environment and arguments
(src/podcastfy/tts/providers/openai.py lines 43-57): with a truthy
`OPENAI_TTS_VOICE_AS_MODEL` the voice is sent as the model and the model
moves into `extra_body`; otherwise the arguments pass through unchanged. -/
def speechRequest (env : TTSEnv) (text voice model : String) : SpeechRequest :=
  if pyTruthy env.voice_as_model then
    ⟨voice, voice, text, [("backend", model)]⟩
  else
    ⟨model, voice, text, []⟩

/-- Embedding of `OpenAITTS.generate_audio`
(src/podcastfy/tts/providers/openai.py lines 36-60).  `validate` stands for
the inherited `validate_parameters` call and `synth` for the external
`client.audio.speech.create` call, both external to this file's sources; an
exception from the synthesis call is caught and re-raised as
`RuntimeError("Failed to generate audio: " + str(e))` chained from the
original. -/
def generate_audio (env : TTSEnv)
    (validate : String → String → String → Option PyError)
    (synth : SpeechRequest → Except PyError AudioBytes)
    (text voice model : String) : Except Raised AudioBytes :=
  match validate text voice model with
  | some e => .error ⟨e, none⟩
  | none =>
    match synth (speechRequest env text voice model) with
    | .ok audio => .ok audio
    | .error e =>
      .error ⟨.runtimeError ("Failed to generate audio: " ++ e.toMessage), some e⟩

/-- C8 counterexample: on a synthesis failure `boom`, `generate_audio` does
not surface the original error value unchanged. -/
theorem generate_audio_not_as_is :
    generate_audio ⟨3600, none, none⟩ (fun _ _ _ => none)
      (fun _ => .error (.apiError "boom")) "hi" "alloy" "tts-1" ≠
      .error ⟨.apiError "boom", none⟩ := by
  intro h
  simp only [generate_audio, speechRequest, PyError.toMessage, Except.error.injEq,
    Raised.mk.injEq] at h
  exact Option.noConfusion h.2

/-- C8 (amended): an exception `e` of the external synthesis call is
surfaced as a `RuntimeError` whose message is
`"Failed to generate audio: " ++ str(e)`, chained from the original `e`,
rather than as the original error value unchanged. -/
theorem generate_audio_wraps_error (env : TTSEnv)
    (validate : String → String → String → Option PyError)
    (synth : SpeechRequest → Except PyError AudioBytes)
    (text voice model : String) (e : PyError)
    (hv : validate text voice model = none)
    (hs : synth (speechRequest env text voice model) = .error e) :
    generate_audio env validate synth text voice model =
      .error ⟨.runtimeError ("Failed to generate audio: " ++ e.toMessage), some e⟩ := by
  unfold generate_audio
  rw [hv, hs]

/-- C8 witness: a synthesis failure `boom` comes back as
`RuntimeError "Failed to generate audio: boom"` with the original as cause. -/
theorem generate_audio_wraps_error_witness :
    generate_audio ⟨3600, none, none⟩ (fun _ _ _ => none)
      (fun _ => .error (.apiError "boom")) "hi" "alloy" "tts-1" =
      .error ⟨.runtimeError ("Failed to generate audio: " ++
        (PyError.apiError "boom").toMessage), some (.apiError "boom")⟩ :=
  generate_audio_wraps_error ⟨3600, none, none⟩ (fun _ _ _ => none)
    (fun _ => .error (.apiError "boom")) "hi" "alloy" "tts-1" (.apiError "boom")
    (by rfl) (by rfl)

/-- Arguments of one `generate_podcast` call made by the notebook glue
(src/podcastfy.py lines 58-70); the keyword arguments forwarded verbatim are
carried in `extra`. -/
structure GenPodcastCall where
  llm_model_name : Option String
  api_key_label : Option String
  transcript_only : Bool
  transcript_file : Option String
  tts_model : Option String
  extra : List (String × String)
deriving DecidableEq, Repr

/-- Keyword arguments of `generate_and_embed_podcast`: the optional
`transcript_only` flag (popped with default `False`, src/podcastfy.py line
57) and the remaining keyword arguments, forwarded verbatim. -/
structure EmbedKwargs where
  transcript_only : Option Bool
  extra : List (String × String)
deriving DecidableEq, Repr

/-- The transcript-generation call the glue always makes first
(src/podcastfy.py lines 58-63): fixed local LLM, `transcript_only=True`, no
TTS model, remaining kwargs passed through. -/
def transcriptCall (kwargs : EmbedKwargs) : GenPodcastCall :=
  ⟨some "llama-3.2-3b-instruct-q4_k_m", some "OPENAI_API_KEY", true, none, none,
    kwargs.extra⟩

/-- The audio-synthesis call the glue makes on the transcript file when
audio was requested (src/podcastfy.py lines 67-70). -/
def audioCall (transcript_file : String) : GenPodcastCall :=
  ⟨none, none, false, some transcript_file, some "openai", []⟩

/-- Embedding of `generate_and_embed_podcast` (src/podcastfy.py lines
52-72).  `gp` stands for `podcastfy.client.generate_podcast`, an external
collaborator returning a file path.  The embedding returns the glue's result
together with the list of `generate_podcast` calls performed, in order. -/
def generate_and_embed_podcast (gp : GenPodcastCall → String)
    (kwargs : EmbedKwargs) : String × List GenPodcastCall :=
  let transcript_only := kwargs.transcript_only.getD false
  let transcript_file := gp (transcriptCall kwargs)
  if transcript_only then
    (transcript_file, [transcriptCall kwargs])
  else
    let audio_file := gp (audioCall transcript_file)
    (audio_file, [transcriptCall kwargs, audioCall transcript_file])

/-- C9: called with `transcript_only=True`, the glue returns exactly the
transcript file of its single transcript-only `generate_podcast` call and
performs no audio-synthesis call: there is no second invocation and no
performed call carries a `tts_model`. -/
theorem transcript_only_returns_transcript (gp : GenPodcastCall → String)
    (kwargs : EmbedKwargs) (h : kwargs.transcript_only = some true) :
    (generate_and_embed_podcast gp kwargs).1 = gp (transcriptCall kwargs) ∧
    (generate_and_embed_podcast gp kwargs).2 = [transcriptCall kwargs] ∧
    ∀ call ∈ (generate_and_embed_podcast gp kwargs).2, call.tts_model = none := by
  unfold generate_and_embed_podcast
  rw [h]
  simp [transcriptCall]

/-- C9 witness: with `transcript_only=True` and no further kwargs, the glue
performs exactly the one transcript-only call. -/
theorem transcript_only_returns_transcript_witness :
    (generate_and_embed_podcast (fun _ => "t.txt") ⟨some true, []⟩).2 =
      [transcriptCall ⟨some true, []⟩] :=
  (transcript_only_returns_transcript (fun _ => "t.txt") ⟨some true, []⟩ (by rfl)).2.1

end Podcastfy
